import Mathlib

/-!
Verification of the forward-kinematics core of the pinocchio library
(`include/pinocchio/algorithm/frames.hpp`, `algorithm/kinematics.hpp`).

The scalar type is instantiated to `ℤ` (the spec treats the deep scalar
templating as a generalization mechanism, not part of the algorithm).
Spatial algebra (SE3 placements, spatial motions, spatial inertias) is the
external capability the spec assumes; it is embedded concretely below.
Function bodies present in the headers under `src/` are translated from that
source; bodies that live in the `.hxx` implementation files (absent from
`src/`) are modelled from the spec, as marked in each doc comment.
-/

namespace PinKin

/-- 3-vector over ℤ. -/
@[ext]
structure Vec3 where
  x : ℤ
  y : ℤ
  z : ℤ
deriving DecidableEq, Repr

def Vec3.zero : Vec3 := ⟨0, 0, 0⟩

def Vec3.add (u v : Vec3) : Vec3 := ⟨u.x + v.x, u.y + v.y, u.z + v.z⟩

def Vec3.sub (u v : Vec3) : Vec3 := ⟨u.x - v.x, u.y - v.y, u.z - v.z⟩

def Vec3.neg (u : Vec3) : Vec3 := ⟨-u.x, -u.y, -u.z⟩

def Vec3.smul (c : ℤ) (u : Vec3) : Vec3 := ⟨c * u.x, c * u.y, c * u.z⟩

/-- Cross product of two 3-vectors. -/
def Vec3.cross (u v : Vec3) : Vec3 :=
  ⟨u.y * v.z - u.z * v.y, u.z * v.x - u.x * v.z, u.x * v.y - u.y * v.x⟩

/-- 3×3 matrix over ℤ, rows (a b c; d e f; g h i). -/
@[ext]
structure Mat3 where
  a : ℤ
  b : ℤ
  c : ℤ
  d : ℤ
  e : ℤ
  f : ℤ
  g : ℤ
  h : ℤ
  i : ℤ
deriving DecidableEq, Repr

def Mat3.one : Mat3 := ⟨1, 0, 0, 0, 1, 0, 0, 0, 1⟩

def Mat3.zero : Mat3 := ⟨0, 0, 0, 0, 0, 0, 0, 0, 0⟩

def Mat3.add (M N : Mat3) : Mat3 :=
  ⟨M.a + N.a, M.b + N.b, M.c + N.c,
   M.d + N.d, M.e + N.e, M.f + N.f,
   M.g + N.g, M.h + N.h, M.i + N.i⟩

def Mat3.mul (M N : Mat3) : Mat3 :=
  ⟨M.a * N.a + M.b * N.d + M.c * N.g,
   M.a * N.b + M.b * N.e + M.c * N.h,
   M.a * N.c + M.b * N.f + M.c * N.i,
   M.d * N.a + M.e * N.d + M.f * N.g,
   M.d * N.b + M.e * N.e + M.f * N.h,
   M.d * N.c + M.e * N.f + M.f * N.i,
   M.g * N.a + M.h * N.d + M.i * N.g,
   M.g * N.b + M.h * N.e + M.i * N.h,
   M.g * N.c + M.h * N.f + M.i * N.i⟩

def Mat3.transpose (M : Mat3) : Mat3 :=
  ⟨M.a, M.d, M.g, M.b, M.e, M.h, M.c, M.f, M.i⟩

def Mat3.mulVec (M : Mat3) (v : Vec3) : Vec3 :=
  ⟨M.a * v.x + M.b * v.y + M.c * v.z,
   M.d * v.x + M.e * v.y + M.f * v.z,
   M.g * v.x + M.h * v.y + M.i * v.z⟩

/-- A proper rotation data condition: orthogonality on both sides. -/
def Mat3.IsOrtho (M : Mat3) : Prop :=
  Mat3.mul (Mat3.transpose M) M = Mat3.one ∧ Mat3.mul M (Mat3.transpose M) = Mat3.one

instance (M : Mat3) : Decidable (Mat3.IsOrtho M) := by
  unfold Mat3.IsOrtho; infer_instance

/-- SE3 spatial placement (rigid transform): rotation + translation,
mirrors pinocchio `SE3Tpl`. -/
@[ext]
structure SE3 where
  rot : Mat3
  trans : Vec3
deriving DecidableEq, Repr

/-- Identity placement. -/
def SE3.id : SE3 := ⟨Mat3.one, Vec3.zero⟩

/-- Placement composition `M1 * M2` (pinocchio `SE3::operator*`). -/
def SE3.mul (M1 M2 : SE3) : SE3 :=
  ⟨Mat3.mul M1.rot M2.rot, Vec3.add M1.trans (Mat3.mulVec M1.rot M2.trans)⟩

/-- Placement inverse (pinocchio `SE3::inverse`): `(Rᵀ, -Rᵀ p)`. -/
def SE3.inv (M : SE3) : SE3 :=
  ⟨Mat3.transpose M.rot, Vec3.neg (Mat3.mulVec (Mat3.transpose M.rot) M.trans)⟩

/-- Spatial motion (velocity/acceleration): linear and angular 3-vectors,
mirrors pinocchio `MotionTpl`. -/
@[ext]
structure Motion where
  linear : Vec3
  angular : Vec3
deriving DecidableEq, Repr

def Motion.zero : Motion := ⟨Vec3.zero, Vec3.zero⟩

def Motion.add (m n : Motion) : Motion :=
  ⟨Vec3.add m.linear n.linear, Vec3.add m.angular n.angular⟩

def Motion.sub (m n : Motion) : Motion :=
  ⟨Vec3.sub m.linear n.linear, Vec3.sub m.angular n.angular⟩

/-- SE3 action on a spatial motion (pinocchio `SE3::act` on `Motion`):
`ω' = R ω`, `v' = R v + p × (R ω)`. -/
def SE3.act (M : SE3) (m : Motion) : Motion :=
  ⟨Vec3.add (Mat3.mulVec M.rot m.linear)
      (Vec3.cross M.trans (Mat3.mulVec M.rot m.angular)),
   Mat3.mulVec M.rot m.angular⟩

/-- SE3 inverse action on a spatial motion (pinocchio `SE3::actInv` on
`Motion`): `ω' = Rᵀ ω`, `v' = Rᵀ (v - p × ω)`. -/
def SE3.actInv (M : SE3) (m : Motion) : Motion :=
  ⟨Mat3.mulVec (Mat3.transpose M.rot) (Vec3.sub m.linear (Vec3.cross M.trans m.angular)),
   Mat3.mulVec (Mat3.transpose M.rot) m.angular⟩

/-- Rotation-only re-expression of a spatial motion (applies `R` to both
3-vector parts, the translation playing no role). -/
def Motion.rotateBy (R : Mat3) (m : Motion) : Motion :=
  ⟨Mat3.mulVec R m.linear, Mat3.mulVec R m.angular⟩

/-- Reference conventions for expressing frame quantities
(pinocchio `ReferenceFrame`). -/
inductive ReferenceFrame where
  | LOCAL
  | WORLD
  | LOCAL_WORLD_ALIGNED
deriving DecidableEq, Repr

/-- Convention for relative-placement queries (pinocchio `Convention`). -/
inductive Convention where
  | LOCAL
  | WORLD
deriving DecidableEq, Repr

/-- Skew-symmetric matrix of a 3-vector (hat operator). -/
def Mat3.skew (v : Vec3) : Mat3 :=
  ⟨0, -v.z, v.y, v.z, 0, -v.x, -v.y, v.x, 0⟩

/-- Spatial inertia, represented by its 6×6 matrix in 3×3 blocks acting on
(linear, angular) motion coordinates. The spec treats spatial inertia as an
external spatial-algebra capability; addition of spatial inertias is
blockwise matrix addition. -/
@[ext]
structure Inertia where
  m11 : Mat3
  m12 : Mat3
  m21 : Mat3
  m22 : Mat3
deriving DecidableEq, Repr

def Inertia.zero : Inertia := ⟨Mat3.zero, Mat3.zero, Mat3.zero, Mat3.zero⟩

def Inertia.add (I J : Inertia) : Inertia :=
  ⟨Mat3.add I.m11 J.m11, Mat3.add I.m12 J.m12,
   Mat3.add I.m21 J.m21, Mat3.add I.m22 J.m22⟩

/-- Transport of a spatial inertia into a frame whose placement w.r.t. the
inertia's current frame is `M`: congruence `Xᵀ I X` by the motion transform
`X = [[R, p̂R], [0, R]]` of `M` (standard spatial algebra, the external
capability assumed by the spec). -/
def Inertia.se3ActInv (M : SE3) (I : Inertia) : Inertia :=
  let R := M.rot
  let PR := Mat3.mul (Mat3.skew M.trans) R
  let Rt := Mat3.transpose R
  let PRt := Mat3.transpose PR
  let b11 := Mat3.mul I.m11 R
  let b12 := Mat3.add (Mat3.mul I.m11 PR) (Mat3.mul I.m12 R)
  let b21 := Mat3.mul I.m21 R
  let b22 := Mat3.add (Mat3.mul I.m21 PR) (Mat3.mul I.m22 R)
  ⟨Mat3.mul Rt b11, Mat3.mul Rt b12,
   Mat3.add (Mat3.mul PRt b11) (Mat3.mul Rt b21),
   Mat3.add (Mat3.mul PRt b12) (Mat3.mul Rt b22)⟩

/-- Direct transport of a spatial inertia by a placement `M` (inverse
direction of `Inertia.se3ActInv`). -/
def Inertia.se3Act (M : SE3) (I : Inertia) : Inertia :=
  Inertia.se3ActInv (SE3.inv M) I

/-- Spatial force (torque + force), mirrors pinocchio `ForceTpl`. -/
@[ext]
structure Force where
  linear : Vec3
  angular : Vec3
deriving DecidableEq, Repr

def Force.zero : Force := ⟨Vec3.zero, Vec3.zero⟩

def Force.add (φ ψ : Force) : Force :=
  ⟨Vec3.add φ.linear ψ.linear, Vec3.add φ.angular ψ.angular⟩

/-- SE3 action on a spatial force (pinocchio `SE3::act` on `Force`):
`f' = R f`, `τ' = R τ + p × (R f)`. -/
def SE3.actForce (M : SE3) (φ : Force) : Force :=
  ⟨Mat3.mulVec M.rot φ.linear,
   Vec3.add (Mat3.mulVec M.rot φ.angular)
     (Vec3.cross M.trans (Mat3.mulVec M.rot φ.linear))⟩

/-- SE3 inverse action on a spatial force. -/
def SE3.actInvForce (M : SE3) (φ : Force) : Force :=
  ⟨Mat3.mulVec (Mat3.transpose M.rot) φ.linear,
   Mat3.mulVec (Mat3.transpose M.rot)
     (Vec3.sub φ.angular (Vec3.cross M.trans φ.linear))⟩

/-- A joint of the model (spec §3): parent joint index, the position of its
configuration block (`idx_q`, of width `nqj`) in `q` and of its velocity
block (`idx_v`, of width `nvj`) in `v`, its configuration-to-placement
mapping `jcalc` and its motion-subspace mapping `subspace`, both applied to
the joint's local block. -/
structure Joint where
  parent : ℕ
  idx_q : ℕ
  nqj : ℕ
  idx_v : ℕ
  nvj : ℕ
  jcalc : List ℤ → SE3
  subspace : List ℤ → Motion

/-- Placeholder joint returned by out-of-range list reads. -/
def Joint.dummy : Joint :=
  ⟨0, 0, 0, 0, 0, fun _ => SE3.id, fun _ => Motion.zero⟩

/-- An operational frame (mirrors pinocchio `FrameTpl`): parent joint index,
fixed offset placement w.r.t. that joint, and an attached spatial inertia. -/
structure Frame where
  parentJoint : ℕ
  placement : SE3
  inertia : Inertia
deriving DecidableEq

def Frame.dummy : Frame := ⟨0, SE3.id, Inertia.zero⟩

/-- The kinematic model (spec §3): joint `k ∈ [1, njoints)` is stored at
list position `k - 1`; joint 0 is the fixed universe. `nq`/`nv` are the
configuration and tangent dimensions; `frames` is the frame list. -/
structure Model where
  joints : List Joint
  nq : ℕ
  nv : ℕ
  frames : List Frame

def Model.njoints (m : Model) : ℕ := m.joints.length + 1

def Model.nframes (m : Model) : ℕ := m.frames.length

/-- Joint lookup by joint index (1-based; index 0 yields the dummy universe
joint, which is never consulted by the algorithms). -/
def Model.joint (m : Model) (i : ℕ) : Joint := m.joints.getD (i - 1) Joint.dummy

/-- Parent joint index of joint `i` (0 for the universe). -/
def parentOf (m : Model) (i : ℕ) : ℕ := if i = 0 then 0 else (m.joint i).parent

/-- The data workspace (spec §3, mirrors pinocchio `DataTpl`): per-joint
relative placements `liMi`, absolute placements `oMi`, spatial velocities
`v` and accelerations `a`; per-frame cached placements `oMf`; the dense
joint-Jacobian cache `J` (column per velocity coordinate, WORLD-expressed);
the crba-accumulated per-joint inertia cache `Ycrb`; the rnea per-joint
force cache `f`. -/
structure Data where
  liMi : List SE3
  oMi : List SE3
  v : List Motion
  a : List Motion
  oMf : List SE3
  J : List Motion
  Ycrb : List Inertia
  f : List Force

/-- Error kinds at the API boundary: `invalidArgument` models the
PINOCCHIO_CHECK_INPUT_ARGUMENT reporting path; `outOfBoundsAccess` renders
an unguarded C++ array access with an out-of-range index. -/
inductive KinError where
  | invalidArgument
  | outOfBoundsAccess
deriving DecidableEq, Repr

/-- `e` is a success. -/
def isOkE {α : Type} (e : Except KinError α) : Prop := ∃ x, e = Except.ok x

/-- The local block of a coordinate vector starting at `idx`, of width `n`. -/
def segOf (l : List ℤ) (idx n : ℕ) : List ℤ := (l.drop idx).take n

/-- Unit coordinate vector of length `n` with a one at position `c`. -/
def unitVec (n c : ℕ) : List ℤ :=
  (List.range n).map (fun t => if t = c then (1 : ℤ) else 0)

/-! ### Forward-kinematics propagation (kinematics.hpp) -/

/-- Modelled from the spec: the placement propagation of `forwardKinematics`
(its body lives in `kinematics.hxx`, absent from `src/`). For each joint in
increasing index order, compute the relative placement from `q`'s local
block via `jcalc`, and compose with the parent's absolute placement (the
universe's absolute placement is the identity). Returns `(liMi, oMi)`, with
entry 0 reserved for the universe. -/
def fkPlacements (model : Model) (q : List ℤ) : List SE3 × List SE3 :=
  model.joints.foldl
    (fun st j =>
      let rel := j.jcalc (segOf q j.idx_q j.nqj)
      let abs := SE3.mul (st.2.getD j.parent SE3.id) rel
      (st.1 ++ [rel], st.2 ++ [abs]))
    ([SE3.id], [SE3.id])

/-- Modelled from the spec: second-order propagation state
`(liMi, oMi, v)`. Child spatial velocity = parent velocity inverse-acted
through the relative placement, plus the local joint velocity from the
motion subspace. -/
def fkPV (model : Model) (q v : List ℤ) : List SE3 × List SE3 × List Motion :=
  model.joints.foldl
    (fun st j =>
      let rel := j.jcalc (segOf q j.idx_q j.nqj)
      let abs := SE3.mul (st.2.1.getD j.parent SE3.id) rel
      let vJ := j.subspace (segOf v j.idx_v j.nvj)
      let vi := Motion.add (SE3.actInv rel (st.2.2.getD j.parent Motion.zero)) vJ
      (st.1 ++ [rel], st.2.1 ++ [abs], st.2.2 ++ [vi]))
    ([SE3.id], [SE3.id], [Motion.zero])

/-- Spatial motion cross product (the Lie bracket), used for the
velocity-coupling term of the acceleration propagation. -/
def Motion.cross (m n : Motion) : Motion :=
  ⟨Vec3.add (Vec3.cross m.angular n.linear) (Vec3.cross m.linear n.angular),
   Vec3.cross m.angular n.angular⟩

/-- Modelled from the spec: third-order propagation state
`(liMi, oMi, v, a)`. Child spatial acceleration = parent acceleration
inverse-acted through the relative placement, plus the local joint
acceleration contribution, plus the velocity-coupling cross term between
the child's velocity and the local joint velocity. -/
def fkPVA (model : Model) (q v a : List ℤ) :
    List SE3 × List SE3 × List Motion × List Motion :=
  model.joints.foldl
    (fun st j =>
      let rel := j.jcalc (segOf q j.idx_q j.nqj)
      let abs := SE3.mul (st.2.1.getD j.parent SE3.id) rel
      let vJ := j.subspace (segOf v j.idx_v j.nvj)
      let vi := Motion.add (SE3.actInv rel (st.2.2.1.getD j.parent Motion.zero)) vJ
      let aJ := j.subspace (segOf a j.idx_v j.nvj)
      let ai := Motion.add
        (Motion.add (SE3.actInv rel (st.2.2.2.getD j.parent Motion.zero)) aJ)
        (Motion.cross vi vJ)
      (st.1 ++ [rel], st.2.1 ++ [abs], st.2.2.1 ++ [vi], st.2.2.2 ++ [ai]))
    ([SE3.id], [SE3.id], [Motion.zero], [Motion.zero])

/-- Modelled from the spec: `forwardKinematics(model, data, q)`
(kinematics.hxx absent from `src/`). Fails with `invalidArgument` when the
length of `q` mismatches `model.nq` (the only validated precondition);
otherwise overwrites the placement arrays entirely and never fails. -/
def forwardKinematics (model : Model) (data : Data) (q : List ℤ) :
    Except KinError Data :=
  if q.length = model.nq then
    let st := fkPlacements model q
    .ok { data with liMi := st.1, oMi := st.2 }
  else .error .invalidArgument

/-- Modelled from the spec: `forwardKinematics(model, data, q, v)`. Checks
the lengths of `q` against `model.nq` and `v` against `model.nv`; otherwise
total. -/
def forwardKinematicsVel (model : Model) (data : Data) (q v : List ℤ) :
    Except KinError Data :=
  if q.length = model.nq ∧ v.length = model.nv then
    let st := fkPV model q v
    .ok { data with liMi := st.1, oMi := st.2.1, v := st.2.2 }
  else .error .invalidArgument

/-- Modelled from the spec: `forwardKinematics(model, data, q, v, a)`.
Checks the lengths of `q`, `v` and `a`; otherwise total. -/
def forwardKinematicsAcc (model : Model) (data : Data) (q v a : List ℤ) :
    Except KinError Data :=
  if q.length = model.nq ∧ v.length = model.nv ∧ a.length = model.nv then
    let st := fkPVA model q v a
    .ok { data with liMi := st.1, oMi := st.2.1, v := st.2.2.1, a := st.2.2.2 }
  else .error .invalidArgument

/-- Ancestor chain of joint `i` (the joint itself, then its parents up to
the universe 0), computed with explicit fuel; `i + 1` units of fuel suffice
for well-formed models, whose parent indices decrease. -/
def ancestorsFuel (m : Model) : ℕ → ℕ → List ℕ
  | 0, _ => []
  | _ + 1, 0 => [0]
  | fuel + 1, i => i :: ancestorsFuel m fuel (parentOf m i)

/-- Support chain of a joint: from the joint up to the root. -/
def supportChain (m : Model) (j : ℕ) : List ℕ := ancestorsFuel m (j + 1) j

/-- Whether joint `j` lies on the support chain of joint `jTarget`. -/
def onSupport (m : Model) (jTarget j : ℕ) : Bool :=
  (supportChain m jTarget).contains j

/-- Absolute placement of joint `j` recomputed from the relative placements
`data.liMi` by walking the ancestor path (used by the LOCAL convention of
`getRelativePlacement`). -/
def placementFromRel (model : Model) (data : Data) (j : ℕ) : SE3 :=
  ((supportChain model j).reverse).foldl
    (fun M i => SE3.mul M (data.liMi.getD i SE3.id)) SE3.id

/-- Modelled from the spec: `getRelativePlacement` (kinematics.hxx absent
from `src/`). WORLD convention: O(1) direct composition of the cached
absolute placements, the relative placement of the target joint w.r.t. the
reference joint. LOCAL convention: the same relative placement obtained by
walking the ancestor paths and composing the cached relative placements
`data.liMi`. -/
def getRelativePlacement (model : Model) (data : Data)
    (jointIdRef jointIdTarget : ℕ) (conv : Convention) : SE3 :=
  match conv with
  | .WORLD =>
      SE3.mul (SE3.inv (data.oMi.getD jointIdRef SE3.id))
        (data.oMi.getD jointIdTarget SE3.id)
  | .LOCAL =>
      SE3.mul (SE3.inv (placementFromRel model data jointIdRef))
        (placementFromRel model data jointIdTarget)

/-! ### Frame resolver (frames.hpp) -/

/-- Modelled from the spec: the joint-level
`getFrameVelocity(model, data, joint_id, placement, rf)` (its body lives in
`frames.hxx`, absent from `src/`). LOCAL: direct inverse-transport of the
parent joint's velocity by the offset placement. WORLD: the joint velocity
re-expressed using the absolute placement's rotation only (velocity is a
free vector field transported by rotation for the WORLD convention, by
convention of this library). LOCAL_WORLD_ALIGNED: rotation-only
re-expression combined with the angular-times-lever coupling from the
offset's translation. -/
def getFrameVelocity (model : Model) (data : Data) (joint_id : ℕ)
    (placement : SE3) (rf : ReferenceFrame) : Motion :=
  let vj := data.v.getD joint_id Motion.zero
  let oMi := data.oMi.getD joint_id SE3.id
  match rf with
  | .LOCAL => SE3.actInv placement vj
  | .WORLD => Motion.rotateBy oMi.rot vj
  | .LOCAL_WORLD_ALIGNED =>
      Motion.rotateBy oMi.rot
        ⟨Vec3.add vj.linear (Vec3.cross vj.angular placement.trans), vj.angular⟩

/-- Translated from `frames.hpp` lines 106–117: the frame-indexed
`getFrameVelocity` overload reads `model.frames[frame_id]` with no bounds
check and delegates to the joint-level overload on the frame's parent joint
and stored offset. The unguarded C++ array access is rendered as an
`outOfBoundsAccess` error when the index is out of range. -/
def getFrameVelocityF (model : Model) (data : Data) (frame_id : ℕ)
    (rf : ReferenceFrame) : Except KinError Motion :=
  match model.frames.get? frame_id with
  | none => .error .outOfBoundsAccess
  | some frame => .ok (getFrameVelocity model data frame.parentJoint frame.placement rf)

/-- Modelled from the spec: the joint-level `getFrameAcceleration`
(frames.hxx absent from `src/`): the transport of the parent joint's
spatial acceleration analogous to `getFrameVelocity`. -/
def getFrameAcceleration (model : Model) (data : Data) (joint_id : ℕ)
    (placement : SE3) (rf : ReferenceFrame) : Motion :=
  let aj := data.a.getD joint_id Motion.zero
  let oMi := data.oMi.getD joint_id SE3.id
  match rf with
  | .LOCAL => SE3.actInv placement aj
  | .WORLD => Motion.rotateBy oMi.rot aj
  | .LOCAL_WORLD_ALIGNED =>
      Motion.rotateBy oMi.rot
        ⟨Vec3.add aj.linear (Vec3.cross aj.angular placement.trans), aj.angular⟩

/-- Translated from `frames.hpp` lines 164–174: frame-indexed
`getFrameAcceleration` overload; unchecked `model.frames[frame_id]` read,
then delegation to the joint-level overload. -/
def getFrameAccelerationF (model : Model) (data : Data) (frame_id : ℕ)
    (rf : ReferenceFrame) : Except KinError Motion :=
  match model.frames.get? frame_id with
  | none => .error .outOfBoundsAccess
  | some frame => .ok (getFrameAcceleration model data frame.parentJoint frame.placement rf)

/-- Modelled from the spec: the joint-level `getFrameClassicalAcceleration`
(frames.hxx absent from `src/`): the spatial acceleration in convention
`rf`, with the centripetal correction term ω × v (computed from the frame
velocity in the same convention) added to the linear part. -/
def getFrameClassicalAcceleration (model : Model) (data : Data) (joint_id : ℕ)
    (placement : SE3) (rf : ReferenceFrame) : Motion :=
  let vel := getFrameVelocity model data joint_id placement rf
  let acc := getFrameAcceleration model data joint_id placement rf
  ⟨Vec3.add acc.linear (Vec3.cross vel.angular vel.linear), acc.angular⟩

/-- Translated from `frames.hpp` lines 224–234: frame-indexed
`getFrameClassicalAcceleration` overload; unchecked
`model.frames[frame_id]` read, then delegation. -/
def getFrameClassicalAccelerationF (model : Model) (data : Data) (frame_id : ℕ)
    (rf : ReferenceFrame) : Except KinError Motion :=
  match model.frames.get? frame_id with
  | none => .error .outOfBoundsAccess
  | some frame =>
      .ok (getFrameClassicalAcceleration model data frame.parentJoint frame.placement rf)

/-- Modelled from the spec: `updateFramePlacements(model, data)`
(frames.hxx absent from `src/`): for every frame, recompute the cached
absolute placement as the parent joint's absolute placement composed with
the frame's fixed offset. -/
def updateFramePlacements (model : Model) (data : Data) : Data :=
  { data with
    oMf := model.frames.map
      (fun fr => SE3.mul (data.oMi.getD fr.parentJoint SE3.id) fr.placement) }

/-- Modelled from the spec: `updateFramePlacement(model, data, frame_id)`
(frames.hxx absent from `src/`): the same recomputation for a single frame,
returning the updated cached value; fails with `invalidArgument` when
`frame_id` is out of bounds. -/
def updateFramePlacement (model : Model) (data : Data) (frame_id : ℕ) :
    Except KinError (Data × SE3) :=
  if frame_id < model.frames.length then
    let fr := model.frames.getD frame_id Frame.dummy
    let M := SE3.mul (data.oMi.getD fr.parentJoint SE3.id) fr.placement
    .ok ({ data with oMf := data.oMf.set frame_id M }, M)
  else .error .invalidArgument

/-! ### Jacobian extractor (frames.hpp) -/

/-- The joint owning velocity-coordinate column `k`, when it exists. -/
def colOwner (model : Model) (k : ℕ) : Option ℕ :=
  match (List.range model.joints.length).find? (fun idx =>
      let j := model.joints.getD idx Joint.dummy
      decide (j.idx_v ≤ k ∧ k < j.idx_v + j.nvj)) with
  | some idx => some (idx + 1)
  | none => none

/-- Modelled from the spec: the external full-tree joint-Jacobian builder
`computeJointJacobians(model, data, q)` (jacobian.hxx absent from `src/`):
runs the placement propagation for `q` and fills the dense cache `data.J`,
whose column `k` is the WORLD-expressed spatial velocity direction of
generalized-velocity coordinate `k`, i.e. the owning joint's absolute
placement acting on that joint's motion-subspace basis column. -/
def computeJointJacobians (model : Model) (data : Data) (q : List ℤ) : Data :=
  let st := fkPlacements model q
  let J := (List.range model.nv).map (fun k =>
    match colOwner model k with
    | none => Motion.zero
    | some jid =>
        let j := model.joint jid
        SE3.act (st.2.getD jid SE3.id) (j.subspace (unitVec j.nvj (k - j.idx_v))))
  { data with liMi := st.1, oMi := st.2, J := J }

/-- Re-expression of one WORLD-convention Jacobian column into the
requested reference frame, for a frame of absolute placement `oMframe`:
WORLD keeps the column; LOCAL inverse-transports it by `oMframe`;
LOCAL_WORLD_ALIGNED moves the application point to the frame origin while
keeping world axes. -/
def jacCol (oMframe : SE3) (rf : ReferenceFrame) (col : Motion) : Motion :=
  match rf with
  | .WORLD => col
  | .LOCAL => SE3.actInv oMframe col
  | .LOCAL_WORLD_ALIGNED =>
      ⟨Vec3.add col.linear (Vec3.cross col.angular oMframe.trans), col.angular⟩

/-- Modelled from the spec: the joint-level
`getFrameJacobian(model, data, joint_id, placement, rf, J)` (its body lives
in `frames.hxx`, absent from `src/`). Re-expresses/transports the
precomputed dense cache `data.J` into the requested convention, setting
only the columns of joints on the support chain of `joint_id` (spec §4.3:
the outMatrix overloads only set, never clear, the relevant columns, which
is why the caller must zero-initialize); leaves the other columns of the
caller-supplied matrix `J0` untouched and does not modify `data`. -/
def getFrameJacobianJ (model : Model) (data : Data) (joint_id : ℕ)
    (placement : SE3) (rf : ReferenceFrame) (J0 : List Motion) : List Motion :=
  let oMframe := SE3.mul (data.oMi.getD joint_id SE3.id) placement
  (List.range model.nv).map (fun k =>
    match colOwner model k with
    | some jid =>
        if onSupport model joint_id jid then
          jacCol oMframe rf (data.J.getD k Motion.zero)
        else J0.getD k Motion.zero
    | none => J0.getD k Motion.zero)

/-- Translated from `frames.hpp` lines 348–367: the frame-indexed in-place
`getFrameJacobian` overload checks the frame index
(PINOCCHIO_CHECK_INPUT_ARGUMENT, reported as `invalidArgument`), overwrites
`data.oMf[frame_id]` with `data.oMi[frame.parentJoint] * frame.placement`,
then delegates to the joint-level overload on the parent joint and stored
offset. Returns the updated data together with the filled matrix. -/
def getFrameJacobianF (model : Model) (data : Data) (frame_id : ℕ)
    (rf : ReferenceFrame) (J0 : List Motion) :
    Except KinError (Data × List Motion) :=
  if frame_id < model.frames.length then
    let frame := model.frames.getD frame_id Frame.dummy
    let data' := { data with
      oMf := data.oMf.set frame_id
        (SE3.mul (data.oMi.getD frame.parentJoint SE3.id) frame.placement) }
    .ok (data', getFrameJacobianJ model data' frame.parentJoint frame.placement rf J0)
  else .error .invalidArgument

/-- Translated from `frames.hpp` lines 393–405: the return-by-value
frame-indexed `getFrameJacobian` overload zero-initializes the 6×nv result
internally and delegates to the in-place overload. -/
def getFrameJacobianRet (model : Model) (data : Data) (frame_id : ℕ)
    (rf : ReferenceFrame) : Except KinError (Data × List Motion) :=
  getFrameJacobianF model data frame_id rf (List.replicate model.nv Motion.zero)

/-- Modelled from the spec: `computeFrameJacobian(model, data, q, frameId,
rf, J)` (frames.hxx absent from `src/`): the convenience path that runs the
placement propagation for `q`, computes the full-tree joint-Jacobian cache,
updates the one frame's placement and extracts its Jacobian, skipping the
full frame-placement update. -/
def computeFrameJacobian (model : Model) (data : Data) (q : List ℤ)
    (frameId : ℕ) (rf : ReferenceFrame) (J0 : List Motion) :
    Except KinError (Data × List Motion) :=
  let data1 := computeJointJacobians model data q
  getFrameJacobianF model data1 frameId rf J0

/-- The three separate steps the spec compares `computeFrameJacobian`
against: full-tree joint-Jacobian computation for `q`, full frame-placement
update, then `getFrameJacobian` extraction for the frame in the same
convention. -/
def threeStepFrameJacobian (model : Model) (data : Data) (q : List ℤ)
    (frameId : ℕ) (rf : ReferenceFrame) (J0 : List Motion) :
    Except KinError (Data × List Motion) :=
  let data1 := computeJointJacobians model data q
  let data2 := updateFramePlacements model data1
  getFrameJacobianF model data2 frameId rf J0

/-- The matrix component of a Jacobian-routine outcome. -/
def matPart (e : Except KinError (Data × List Motion)) : Option (List Motion) :=
  match e with
  | .ok p => some p.2
  | .error _ => none

/-- The data component of a Jacobian-routine outcome. -/
def dataPart (e : Except KinError (Data × List Motion)) : Option Data :=
  match e with
  | .ok p => some p.1
  | .error _ => none

/-! ### Supported-inertia/force accumulator (frames.hpp) -/

/-- The contribution of a sibling frame `g` to the inertia supported by
frame `fid`: its attached inertia re-expressed from its own axes into frame
`fid`'s axes through the common parent joint. -/
def sibContrib (model : Model) (fid g : ℕ) : Inertia :=
  Inertia.se3ActInv (model.frames.getD fid Frame.dummy).placement
    (Inertia.se3Act (model.frames.getD g Frame.dummy).placement
      (model.frames.getD g Frame.dummy).inertia)

/-- The contribution of a child joint `c` of the frame's parent joint: its
crba-accumulated subtree inertia `data.Ycrb[c]`, transported from joint
`c`'s axes through the parent joint into the frame's axes. -/
def subtreeContrib (model : Model) (data : Data) (fid c : ℕ) : Inertia :=
  Inertia.se3ActInv (model.frames.getD fid Frame.dummy).placement
    (Inertia.se3Act (data.liMi.getD c SE3.id) (data.Ycrb.getD c Inertia.zero))

/-- Modelled from the spec: `computeSupportedInertiaByFrame(model, data,
frame_id, with_subtree)` (frames.hxx absent from `src/`). Sums, in the
frame's own LOCAL axes, starting from the frame's own zero inertia
contribution: the inertias of all frames sharing the same parent joint and
ordered after this frame by attachment index, plus, exactly when
`with_subtree` is true, the crba-accumulated inertia of every child joint
of the parent joint (which covers every descendant joint, read from the
externally-computed cache `data.Ycrb`) transported into this frame. Bounds
on `frame_id` are checked and reported as `invalidArgument` (spec §4.4 and
§7: no failure modes beyond bounds checking). -/
def computeSupportedInertiaByFrame (model : Model) (data : Data)
    (frame_id : ℕ) (with_subtree : Bool) : Except KinError Inertia :=
  if frame_id < model.frames.length then
    let jid := (model.frames.getD frame_id Frame.dummy).parentJoint
    let base := (List.range model.frames.length).foldl (fun acc g =>
      if frame_id < g ∧ (model.frames.getD g Frame.dummy).parentJoint = jid then
        Inertia.add acc (sibContrib model frame_id g)
      else acc) Inertia.zero
    if with_subtree then
      .ok ((List.range model.njoints).foldl (fun acc c =>
        if c ≠ 0 ∧ parentOf model c = jid then
          Inertia.add acc (subtreeContrib model data frame_id c)
        else acc) base)
    else .ok base
  else .error .invalidArgument

/-- Modelled from the spec: `computeSupportedForceByFrame(model, data,
frame_id)` (frames.hxx absent from `src/`). Sums, in the frame's LOCAL
axes, the rnea-computed per-joint force cache over the full descendant
subtree of the frame's parent joint: the force transmitted through each
child joint (whose cache entry already accumulates that child's whole
subtree), transported into the frame; forces attributed to the parent joint
itself are excluded (the documented asymmetry). Bounds on `frame_id` are
checked and reported as `invalidArgument`. -/
def computeSupportedForceByFrame (model : Model) (data : Data)
    (frame_id : ℕ) : Except KinError Force :=
  if frame_id < model.frames.length then
    let frame := model.frames.getD frame_id Frame.dummy
    let jid := frame.parentJoint
    .ok ((List.range model.njoints).foldl (fun acc c =>
      if c ≠ 0 ∧ parentOf model c = jid then
        Force.add acc (SE3.actInvForce frame.placement
          (SE3.actForce (data.liMi.getD c SE3.id) (data.f.getD c Force.zero)))
      else acc) Force.zero)
  else .error .invalidArgument

/-- Sum of a list of spatial inertias. -/
def inertiaSum (l : List Inertia) : Inertia := l.foldl Inertia.add Inertia.zero

/-- The frames sharing frame `fid`'s parent joint and ordered after it by
attachment index. -/
def siblingsAfter (model : Model) (fid : ℕ) : List ℕ :=
  (List.range model.frames.length).filter (fun g =>
    decide (fid < g ∧ (model.frames.getD g Frame.dummy).parentJoint
      = (model.frames.getD fid Frame.dummy).parentJoint))

/-- The child joints of joint `jid`. -/
def childJoints (model : Model) (jid : ℕ) : List ℕ :=
  (List.range model.njoints).filter (fun c =>
    decide (c ≠ 0 ∧ parentOf model c = jid))

/-! ### Concrete instances used by the witness theorems -/

/-- A concrete prismatic-style joint sliding along x, child of the
universe, occupying configuration and velocity block 0. -/
def cJoint1 : Joint :=
  ⟨0, 0, 1, 0, 1,
   fun l => ⟨Mat3.one, ⟨l.getD 0 0, 0, 0⟩⟩,
   fun l => ⟨⟨l.getD 0 0, 0, 0⟩, Vec3.zero⟩⟩

/-- A concrete prismatic-style joint sliding along y, also a child of the
universe (the tree branches at the root), occupying block 1. -/
def cJoint2 : Joint :=
  ⟨0, 1, 1, 1, 1,
   fun l => ⟨Mat3.one, ⟨0, l.getD 0 0, 0⟩⟩,
   fun l => ⟨⟨0, l.getD 0 0, 0⟩, Vec3.zero⟩⟩

/-- Rotation by 90° about the z axis (an exactly representable orthogonal
matrix). -/
def rot90z : Mat3 := ⟨0, -1, 0, 1, 0, 0, 0, 0, 1⟩

/-- A concrete nonzero spatial inertia. -/
def cInertia : Inertia :=
  ⟨Mat3.one, Mat3.skew ⟨1, 2, 3⟩, Mat3.transpose (Mat3.skew ⟨1, 2, 3⟩), Mat3.one⟩

def cFrame0 : Frame := ⟨1, ⟨Mat3.one, ⟨1, 0, 0⟩⟩, Inertia.zero⟩

def cFrame1 : Frame := ⟨1, ⟨rot90z, ⟨0, 1, 0⟩⟩, cInertia⟩

/-- A concrete two-joint, two-frame model: both joints are children of the
universe, both frames are attached to joint 1. -/
def cModel : Model := ⟨[cJoint1, cJoint2], 2, 2, [cFrame0, cFrame1]⟩

/-- A concrete data workspace for `cModel`. -/
def cData : Data :=
  { liMi := [SE3.id, ⟨Mat3.one, ⟨1, 0, 0⟩⟩, ⟨Mat3.one, ⟨0, 1, 0⟩⟩]
    oMi := [SE3.id, ⟨rot90z, ⟨1, 2, 3⟩⟩, ⟨Mat3.one, ⟨0, 1, 0⟩⟩]
    v := [Motion.zero, ⟨⟨1, 0, 0⟩, ⟨0, 0, 1⟩⟩, Motion.zero]
    a := [Motion.zero, ⟨⟨0, 1, 0⟩, ⟨1, 0, 0⟩⟩, Motion.zero]
    oMf := [SE3.id, ⟨rot90z, ⟨4, 5, 6⟩⟩]
    J := [⟨⟨1, 0, 0⟩, Vec3.zero⟩, ⟨⟨0, 1, 0⟩, Vec3.zero⟩]
    Ycrb := [Inertia.zero, cInertia, cInertia]
    f := [Force.zero, ⟨⟨1, 0, 0⟩, ⟨0, 1, 0⟩⟩, Force.zero] }

/-- Same as `cData` except for the translation part of `oMi[1]`. -/
def cData2 : Data :=
  { cData with oMi := [SE3.id, ⟨rot90z, ⟨9, 9, 9⟩⟩, ⟨Mat3.one, ⟨0, 1, 0⟩⟩] }

/-! ### List helper lemmas -/

theorem list_getD_map {α β : Type} (fn : α → β) (d : β) (dA : α)
    (l : List α) : ∀ (k : ℕ), k < l.length →
      (l.map fn).getD k d = fn (l.getD k dA) := by
  induction l with
  | nil => intro k h; exact absurd h (Nat.not_lt_zero k)
  | cons a t ih =>
      intro k h
      cases k with
      | zero => rfl
      | succ k => exact ih k (Nat.lt_of_succ_lt_succ h)

theorem list_getD_set_self {α : Type} (x d : α) (l : List α) :
    ∀ (k : ℕ), k < l.length → (l.set k x).getD k d = x := by
  induction l with
  | nil => intro k h; exact absurd h (Nat.not_lt_zero k)
  | cons a t ih =>
      intro k h
      cases k with
      | zero => rfl
      | succ k => exact ih k (Nat.lt_of_succ_lt_succ h)

theorem list_getD_set_ne {α : Type} (x d : α) (l : List α) :
    ∀ (k g : ℕ), k ≠ g → (l.set k x).getD g d = l.getD g d := by
  induction l with
  | nil => intro k g _; cases k <;> rfl
  | cons a t ih =>
      intro k g hne
      cases k with
      | zero =>
          cases g with
          | zero => exact absurd rfl hne
          | succ g => rfl
      | succ k =>
          cases g with
          | zero => rfl
          | succ g => exact ih k g (fun h => hne (congrArg Nat.succ h))

theorem list_getD_replicate {α : Type} (x d : α) :
    ∀ (n k : ℕ), k < n → (List.replicate n x).getD k d = x := by
  intro n
  induction n with
  | zero => intro k h; exact absurd h (Nat.not_lt_zero k)
  | succ n ih =>
      intro k h
      cases k with
      | zero => rfl
      | succ k => exact ih k (Nat.lt_of_succ_lt_succ h)

theorem list_foldl_if_filter {α β : Type} (p : α → Prop) [DecidablePred p]
    (fn : β → α → β) (l : List α) :
    ∀ (init : β),
      l.foldl (fun acc g => if p g then fn acc g else acc) init
        = (l.filter (fun g => decide (p g))).foldl fn init := by
  induction l with
  | nil => intro init; rfl
  | cons a t ih =>
      intro init
      by_cases h : p a <;> simp [List.filter_cons, h, ih]

/-! ### Spatial-algebra lemmas -/

theorem Mat3.mulVec_mulVec (A B : Mat3) (v : Vec3) :
    Mat3.mulVec A (Mat3.mulVec B v) = Mat3.mulVec (Mat3.mul A B) v := by
  ext <;> simp [Mat3.mulVec, Mat3.mul] <;> ring

theorem Mat3.mulVec_neg (A : Mat3) (v : Vec3) :
    Mat3.mulVec A (Vec3.neg v) = Vec3.neg (Mat3.mulVec A v) := by
  ext <;> simp [Mat3.mulVec, Vec3.neg] <;> ring

theorem Mat3.one_mulVec (v : Vec3) : Mat3.mulVec Mat3.one v = v := by
  ext <;> simp [Mat3.mulVec, Mat3.one]

theorem Vec3.add_neg (v : Vec3) : Vec3.add v (Vec3.neg v) = Vec3.zero := by
  ext <;> simp [Vec3.add, Vec3.neg, Vec3.zero]

theorem Vec3.neg_add (v : Vec3) : Vec3.add (Vec3.neg v) v = Vec3.zero := by
  ext <;> simp [Vec3.add, Vec3.neg, Vec3.zero]

theorem SE3.mul_assoc (A B C : SE3) :
    SE3.mul (SE3.mul A B) C = SE3.mul A (SE3.mul B C) := by
  ext <;> simp [SE3.mul, Mat3.mul, Mat3.mulVec, Vec3.add] <;> ring

theorem SE3.id_mul (M : SE3) : SE3.mul SE3.id M = M := by
  ext <;> simp [SE3.mul, SE3.id, Mat3.mul, Mat3.one, Mat3.mulVec, Vec3.add, Vec3.zero]

theorem SE3.mul_id (M : SE3) : SE3.mul M SE3.id = M := by
  ext <;> simp [SE3.mul, SE3.id, Mat3.mul, Mat3.one, Mat3.mulVec, Vec3.add, Vec3.zero]

theorem SE3.mul_inv_self (M : SE3)
    (h : Mat3.mul M.rot (Mat3.transpose M.rot) = Mat3.one) :
    SE3.mul M (SE3.inv M) = SE3.id := by
  unfold SE3.mul SE3.inv SE3.id
  rw [Mat3.mulVec_neg, Mat3.mulVec_mulVec, h, Mat3.one_mulVec, Vec3.add_neg]

theorem SE3.inv_mul_self (M : SE3)
    (h : Mat3.mul (Mat3.transpose M.rot) M.rot = Mat3.one) :
    SE3.mul (SE3.inv M) M = SE3.id := by
  unfold SE3.mul SE3.inv SE3.id
  dsimp only
  rw [h, Vec3.neg_add]

theorem Inertia.add_assoc (x y z : Inertia) :
    Inertia.add (Inertia.add x y) z = Inertia.add x (Inertia.add y z) := by
  ext <;> simp [Inertia.add, Mat3.add] <;> ring

theorem Inertia.add_zero (x : Inertia) : Inertia.add x Inertia.zero = x := by
  ext <;> simp [Inertia.add, Inertia.zero, Mat3.add, Mat3.zero]

theorem Inertia.zero_add (x : Inertia) : Inertia.add Inertia.zero x = x := by
  ext <;> simp [Inertia.add, Inertia.zero, Mat3.add, Mat3.zero]

theorem inertia_foldl_add (l : List Inertia) :
    ∀ (b : Inertia), l.foldl Inertia.add b = Inertia.add b (inertiaSum l) := by
  induction l with
  | nil => intro b; simp [inertiaSum, Inertia.add_zero]
  | cons a t ih =>
      intro b
      simp only [List.foldl_cons, inertiaSum] at ih ⊢
      rw [ih (Inertia.add b a), ih (Inertia.add Inertia.zero a),
        Inertia.zero_add, Inertia.add_assoc]

/-! ### Claim theorems -/

/-- C1: for every model, data, joint id and offset placement,
`getFrameVelocity` with rf = WORLD returns the parent joint's spatial
velocity re-expressed using only the rotation part of the joint's cached
absolute placement — in particular the result is unchanged by any
modification of `data` that preserves that rotation and the joint velocity,
so the translation part of the absolute placement does not enter — while
with rf = LOCAL it returns the joint velocity inverse-transported by the
offset placement. -/
theorem getFrameVelocity_world_rotation_only_local_inverse_transport
    (model : Model) (d d' : Data) (joint_id : ℕ) (placement : SE3)
    (hrot : (d.oMi.getD joint_id SE3.id).rot = (d'.oMi.getD joint_id SE3.id).rot)
    (hv : d.v.getD joint_id Motion.zero = d'.v.getD joint_id Motion.zero) :
    getFrameVelocity model d joint_id placement ReferenceFrame.WORLD
      = Motion.rotateBy (d.oMi.getD joint_id SE3.id).rot
          (d.v.getD joint_id Motion.zero)
    ∧ getFrameVelocity model d joint_id placement ReferenceFrame.WORLD
      = getFrameVelocity model d' joint_id placement ReferenceFrame.WORLD
    ∧ getFrameVelocity model d joint_id placement ReferenceFrame.LOCAL
      = SE3.actInv placement (d.v.getD joint_id Motion.zero) := by
  refine ⟨rfl, ?_, rfl⟩
  simp only [getFrameVelocity, hrot, hv]

/-- Witness for C1: on a concrete model, two data workspaces differing only
in the translation part of the joint's absolute placement give the same
WORLD-convention frame velocity. -/
theorem getFrameVelocity_world_rotation_only_witness :
    getFrameVelocity cModel cData 1 (SE3.mk Mat3.one ⟨1, 0, 0⟩)
        ReferenceFrame.WORLD
      = getFrameVelocity cModel cData2 1 (SE3.mk Mat3.one ⟨1, 0, 0⟩)
        ReferenceFrame.WORLD :=
  (getFrameVelocity_world_rotation_only_local_inverse_transport cModel cData
    cData2 1 (SE3.mk Mat3.one ⟨1, 0, 0⟩) (by decide) (by decide)).2.1

/-- C3: for every model, data, in-bounds frame id and reference convention,
the classical acceleration of the frame minus its spatial acceleration
equals the centripetal correction term ω × v of the frame velocity in the
same convention (linear part the cross product, angular part zero). -/
theorem classical_minus_spatial_acceleration_eq_centripetal
    (model : Model) (data : Data) (fid : ℕ) (rf : ReferenceFrame)
    (hf : fid < model.frames.length) :
    ∃ vel sa ca,
      getFrameVelocityF model data fid rf = Except.ok vel ∧
      getFrameAccelerationF model data fid rf = Except.ok sa ∧
      getFrameClassicalAccelerationF model data fid rf = Except.ok ca ∧
      Motion.sub ca sa = Motion.mk (Vec3.cross vel.angular vel.linear) Vec3.zero := by
  have hg : model.frames[fid]? = some model.frames[fid] :=
    List.getElem?_eq_getElem hf
  refine ⟨getFrameVelocity model data model.frames[fid].parentJoint
      model.frames[fid].placement rf,
    getFrameAcceleration model data model.frames[fid].parentJoint
      model.frames[fid].placement rf,
    getFrameClassicalAcceleration model data model.frames[fid].parentJoint
      model.frames[fid].placement rf, ?_, ?_, ?_, ?_⟩
  · simp [getFrameVelocityF, hg]
  · simp [getFrameAccelerationF, hg]
  · simp [getFrameClassicalAccelerationF, hg]
  · simp only [getFrameClassicalAcceleration]
    ext <;> simp [Motion.sub, Vec3.sub, Vec3.add, Vec3.zero]

/-- Witness for C3: the centripetal difference law instantiated on the
concrete model, data, frame 0 and the LOCAL convention. -/
theorem classical_minus_spatial_acceleration_witness :
    ∃ vel sa ca,
      getFrameVelocityF cModel cData 0 ReferenceFrame.LOCAL = Except.ok vel ∧
      getFrameAccelerationF cModel cData 0 ReferenceFrame.LOCAL = Except.ok sa ∧
      getFrameClassicalAccelerationF cModel cData 0 ReferenceFrame.LOCAL
        = Except.ok ca ∧
      Motion.sub ca sa = Motion.mk (Vec3.cross vel.angular vel.linear) Vec3.zero :=
  classical_minus_spatial_acceleration_eq_centripetal cModel cData 0
    ReferenceFrame.LOCAL (by decide)

/-- C6: each forwardKinematics overload fails (with InvalidArgument, the
only error it produces) exactly when some supplied vector's length
mismatches the model's expected dimension (`q` against nq, `v` and `a`
against nv); for matching lengths the propagation always succeeds,
whatever the scalar values in the vectors. -/
theorem forwardKinematics_fails_iff_size_mismatch
    (model : Model) (data : Data) (q v a : List ℤ) :
    (isOkE (forwardKinematics model data q) ↔ q.length = model.nq)
    ∧ (isOkE (forwardKinematicsVel model data q v) ↔
        q.length = model.nq ∧ v.length = model.nv)
    ∧ (isOkE (forwardKinematicsAcc model data q v a) ↔
        q.length = model.nq ∧ v.length = model.nv ∧ a.length = model.nv) := by
  refine ⟨?_, ?_, ?_⟩
  · by_cases h : q.length = model.nq <;> simp [forwardKinematics, isOkE, h]
  · by_cases h : q.length = model.nq ∧ v.length = model.nv <;>
      simp [forwardKinematicsVel, isOkE, h]
  · by_cases h : q.length = model.nq ∧ v.length = model.nv ∧
        a.length = model.nv <;>
      simp [forwardKinematicsAcc, isOkE, h]

/-- C8: for every model and data, composing the WORLD-convention relative
placement of joint j w.r.t. joint i with that of i w.r.t. j yields the
identity placement, provided the cached absolute placements carry orthogonal
rotations (as placements produced by propagation do). -/
theorem getRelativePlacement_world_inverse_consistency
    (model : Model) (data : Data) (i j : ℕ)
    (hi : Mat3.IsOrtho (data.oMi.getD i SE3.id).rot)
    (hj : Mat3.IsOrtho (data.oMi.getD j SE3.id).rot) :
    SE3.mul (getRelativePlacement model data i j Convention.WORLD)
      (getRelativePlacement model data j i Convention.WORLD) = SE3.id := by
  show SE3.mul
      (SE3.mul (SE3.inv (data.oMi.getD i SE3.id)) (data.oMi.getD j SE3.id))
      (SE3.mul (SE3.inv (data.oMi.getD j SE3.id)) (data.oMi.getD i SE3.id))
    = SE3.id
  rw [SE3.mul_assoc,
    ← SE3.mul_assoc (data.oMi.getD j SE3.id) (SE3.inv (data.oMi.getD j SE3.id))
      (data.oMi.getD i SE3.id),
    SE3.mul_inv_self _ hj.2, SE3.id_mul, SE3.inv_mul_self _ hi.1]

/-- Witness for C8: inverse consistency on the concrete data, whose cached
absolute placements have exactly orthogonal rotations. -/
theorem getRelativePlacement_world_inverse_consistency_witness :
    SE3.mul (getRelativePlacement cModel cData 1 2 Convention.WORLD)
      (getRelativePlacement cModel cData 2 1 Convention.WORLD) = SE3.id :=
  getRelativePlacement_world_inverse_consistency cModel cData 1 2
    (by decide) (by decide)

/-- C2 counterexample: calling the frame-indexed `getFrameVelocity`
overload of the concrete two-frame model with the out-of-range frame index
5 is not reported as an InvalidArgument error; the call dereferences
`model.frames[5]` unchecked (rendered as an out-of-bounds access), refuting
the claim that every listed operation checks the index at the call
boundary. -/
theorem getFrameVelocityF_oob_counterexample :
    getFrameVelocityF cModel cData 5 ReferenceFrame.LOCAL
        = Except.error KinError.outOfBoundsAccess
    ∧ getFrameVelocityF cModel cData 5 ReferenceFrame.LOCAL
        ≠ Except.error KinError.invalidArgument := by
  refine ⟨rfl, ?_⟩
  intro h
  exact absurd (Except.error.inj h) (by decide)

/-- C2 amended: for every out-of-range frame index, `updateFramePlacement`,
`getFrameJacobian`, `computeSupportedInertiaByFrame` and
`computeSupportedForceByFrame` check the index and report InvalidArgument at
the call boundary, while the frame-indexed `getFrameVelocity`,
`getFrameAcceleration` and `getFrameClassicalAcceleration` overloads perform
no check and proceed to read `model.frames` with the bad index. -/
theorem frame_index_checks_amended
    (model : Model) (data : Data) (fid : ℕ) (rf : ReferenceFrame)
    (w : Bool) (J0 : List Motion)
    (h : model.frames.length ≤ fid) :
    updateFramePlacement model data fid = Except.error KinError.invalidArgument
    ∧ getFrameJacobianF model data fid rf J0 = Except.error KinError.invalidArgument
    ∧ computeSupportedInertiaByFrame model data fid w
        = Except.error KinError.invalidArgument
    ∧ computeSupportedForceByFrame model data fid
        = Except.error KinError.invalidArgument
    ∧ getFrameVelocityF model data fid rf = Except.error KinError.outOfBoundsAccess
    ∧ getFrameAccelerationF model data fid rf = Except.error KinError.outOfBoundsAccess
    ∧ getFrameClassicalAccelerationF model data fid rf
        = Except.error KinError.outOfBoundsAccess := by
  have hlt : ¬ fid < model.frames.length := Nat.not_lt.mpr h
  have hnone : model.frames[fid]? = none := List.getElem?_eq_none h
  refine ⟨?_, ?_, ?_, ?_, ?_, ?_, ?_⟩ <;>
    simp [updateFramePlacement, getFrameJacobianF, computeSupportedInertiaByFrame,
      computeSupportedForceByFrame, getFrameVelocityF, getFrameAccelerationF,
      getFrameClassicalAccelerationF, hlt, hnone]

/-- Witness for the amended C2, at the concrete model and the out-of-range
frame index 7. -/
theorem frame_index_checks_amended_witness :
    updateFramePlacement cModel cData 7 = Except.error KinError.invalidArgument
    ∧ getFrameJacobianF cModel cData 7 ReferenceFrame.WORLD []
        = Except.error KinError.invalidArgument
    ∧ computeSupportedInertiaByFrame cModel cData 7 true
        = Except.error KinError.invalidArgument
    ∧ computeSupportedForceByFrame cModel cData 7
        = Except.error KinError.invalidArgument
    ∧ getFrameVelocityF cModel cData 7 ReferenceFrame.WORLD
        = Except.error KinError.outOfBoundsAccess
    ∧ getFrameAccelerationF cModel cData 7 ReferenceFrame.WORLD
        = Except.error KinError.outOfBoundsAccess
    ∧ getFrameClassicalAccelerationF cModel cData 7 ReferenceFrame.WORLD
        = Except.error KinError.outOfBoundsAccess :=
  frame_index_checks_amended cModel cData 7 ReferenceFrame.WORLD true []
    (by decide)

/-- C7: after `updateFramePlacements`, the cached placement of every frame
equals the absolute placement of the frame's parent joint composed with the
frame's fixed offset, exactly. -/
theorem updateFramePlacements_definitional
    (model : Model) (data : Data) (fid : ℕ)
    (hf : fid < model.frames.length) :
    (updateFramePlacements model data).oMf.getD fid SE3.id
      = SE3.mul
          (data.oMi.getD (model.frames.getD fid Frame.dummy).parentJoint SE3.id)
          (model.frames.getD fid Frame.dummy).placement := by
  simp only [updateFramePlacements]
  rw [list_getD_map _ _ Frame.dummy _ fid hf]

/-- Witness for C7, at frame 1 of the concrete model. -/
theorem updateFramePlacements_definitional_witness :
    (updateFramePlacements cModel cData).oMf.getD 1 SE3.id
      = SE3.mul
          (cData.oMi.getD (cModel.frames.getD 1 Frame.dummy).parentJoint SE3.id)
          (cModel.frames.getD 1 Frame.dummy).placement :=
  updateFramePlacements_definitional cModel cData 1 (by decide)

/-- C10: the frame-indexed in-place `getFrameJacobian` overload overwrites
`data.oMf[frame_id]` with the parent joint's absolute placement composed
with the frame's fixed offset, and leaves every other cached frame
placement unchanged. -/
theorem getFrameJacobianF_oMf_side_effect
    (model : Model) (data : Data) (fid : ℕ) (rf : ReferenceFrame)
    (J0 : List Motion)
    (h1 : fid < model.frames.length) (h2 : fid < data.oMf.length) :
    (dataPart (getFrameJacobianF model data fid rf J0)).map
        (fun d => d.oMf.getD fid SE3.id)
      = some (SE3.mul
          (data.oMi.getD (model.frames.getD fid Frame.dummy).parentJoint SE3.id)
          (model.frames.getD fid Frame.dummy).placement)
    ∧ ∀ g, g ≠ fid →
        (dataPart (getFrameJacobianF model data fid rf J0)).map
            (fun d => d.oMf.getD g SE3.id)
          = some (data.oMf.getD g SE3.id) := by
  simp only [getFrameJacobianF, if_pos h1, dataPart, Option.map]
  constructor
  · rw [list_getD_set_self _ _ _ fid h2]
  · intro g hg
    rw [list_getD_set_ne _ _ _ fid g (Ne.symm hg)]

/-- Witness for C10, at frame 0 of the concrete model; the other frame's
cached placement survives. -/
theorem getFrameJacobianF_oMf_side_effect_witness :
    (dataPart (getFrameJacobianF cModel cData 0 ReferenceFrame.LOCAL [])).map
        (fun d => d.oMf.getD 0 SE3.id)
      = some (SE3.mul
          (cData.oMi.getD (cModel.frames.getD 0 Frame.dummy).parentJoint SE3.id)
          (cModel.frames.getD 0 Frame.dummy).placement)
    ∧ (dataPart (getFrameJacobianF cModel cData 0 ReferenceFrame.LOCAL [])).map
        (fun d => d.oMf.getD 1 SE3.id)
      = some (cData.oMf.getD 1 SE3.id) := by
  have h := getFrameJacobianF_oMf_side_effect cModel cData 0
    ReferenceFrame.LOCAL [] (by decide) (by decide)
  exact ⟨h.1, h.2 1 (by decide)⟩

theorem list_getD_range_map {β : Type} (f : ℕ → β) (d : β) (n k : ℕ)
    (h : k < n) : ((List.range n).map f).getD k d = f k := by
  rw [list_getD_map f d 0 _ k (by simpa using h)]
  congr 1
  simp [List.getD_eq_getElem?_getD, List.getElem?_range h]

/-- C5: in the matrix produced by the return-by-value frame-indexed
`getFrameJacobian` overload, every column owned by a joint that is not on
the frame's ancestor chain (from its parent joint up to the root) is
exactly the zero column. -/
theorem getFrameJacobian_offchain_columns_zero
    (model : Model) (data : Data) (fid k jid : ℕ) (rf : ReferenceFrame)
    (hf : fid < model.frames.length) (hk : k < model.nv)
    (hown : colOwner model k = some jid)
    (hchain : onSupport model
      (model.frames.getD fid Frame.dummy).parentJoint jid = false) :
    (matPart (getFrameJacobianRet model data fid rf)).map
        (fun J => J.getD k Motion.zero)
      = some Motion.zero := by
  simp only [getFrameJacobianRet, getFrameJacobianF, if_pos hf, matPart,
    Option.map, getFrameJacobianJ]
  rw [list_getD_range_map _ _ _ k hk, hown]
  simp only [List.getD_eq_getElem?_getD] at hchain
  simp [hchain, list_getD_replicate _ _ _ k hk]

/-- Witness for C5: in the concrete branching model, the column of joint 2
is zero in the Jacobian of frame 0, which is attached to joint 1. -/
theorem getFrameJacobian_offchain_columns_zero_witness :
    (matPart (getFrameJacobianRet cModel cData 0 ReferenceFrame.WORLD)).map
        (fun J => J.getD 1 Motion.zero)
      = some Motion.zero :=
  getFrameJacobian_offchain_columns_zero cModel cData 0 1 2
    ReferenceFrame.WORLD (by decide) (by decide) (by decide) (by decide)

/-- C4: `computeFrameJacobian` leaves in the output exactly the same
matrix as running the three separate steps: full-tree joint-Jacobian
computation for `q`, full frame-placement update, then `getFrameJacobian`
extraction for the frame in the same convention. -/
theorem computeFrameJacobian_eq_three_steps
    (model : Model) (data : Data) (q : List ℤ) (frameId : ℕ)
    (rf : ReferenceFrame) (J0 : List Motion) :
    matPart (computeFrameJacobian model data q frameId rf J0)
      = matPart (threeStepFrameJacobian model data q frameId rf J0) := by
  by_cases h : frameId < model.frames.length <;>
    simp [computeFrameJacobian, threeStepFrameJacobian, getFrameJacobianF,
      updateFramePlacements, getFrameJacobianJ, matPart, h]

/-- C9: for every in-bounds frame id, `computeSupportedInertiaByFrame`
returns, in the frame's own LOCAL axes, the sum of the frame's own zero
inertia, the inertias of all frames sharing the same parent joint and
ordered after this frame by attachment index, and, exactly when
`with_subtree` is true, the crba-accumulated descendant inertia (one cache
entry per child joint of the parent joint) transported into this frame. -/
theorem computeSupportedInertiaByFrame_eq_sum
    (model : Model) (data : Data) (fid : ℕ) (w : Bool)
    (h : fid < model.frames.length) :
    computeSupportedInertiaByFrame model data fid w = Except.ok
      (Inertia.add
        (inertiaSum ((siblingsAfter model fid).map (sibContrib model fid)))
        (if w then
          inertiaSum ((childJoints model
            (model.frames.getD fid Frame.dummy).parentJoint).map
              (subtreeContrib model data fid))
         else Inertia.zero)) := by
  simp only [computeSupportedInertiaByFrame, if_pos h]
  have hbase :
      (List.range model.frames.length).foldl (fun acc g =>
        if fid < g ∧ (model.frames.getD g Frame.dummy).parentJoint
            = (model.frames.getD fid Frame.dummy).parentJoint then
          Inertia.add acc (sibContrib model fid g)
        else acc) Inertia.zero
      = inertiaSum ((siblingsAfter model fid).map (sibContrib model fid)) := by
    rw [list_foldl_if_filter]
    simp [inertiaSum, siblingsAfter, List.foldl_map]
  cases w with
  | false => simp only [hbase, if_neg, Bool.false_eq_true, Inertia.add_zero,
      ite_false]
  | true =>
      simp only [ite_true, hbase]
      have hsub :
          (List.range model.njoints).foldl (fun acc c =>
            if c ≠ 0 ∧ parentOf model c
                = (model.frames.getD fid Frame.dummy).parentJoint then
              Inertia.add acc (subtreeContrib model data fid c)
            else acc)
            (inertiaSum ((siblingsAfter model fid).map (sibContrib model fid)))
          = Inertia.add
              (inertiaSum ((siblingsAfter model fid).map (sibContrib model fid)))
              (inertiaSum ((childJoints model
                (model.frames.getD fid Frame.dummy).parentJoint).map
                  (subtreeContrib model data fid))) := by
        rw [list_foldl_if_filter]
        rw [← List.foldl_map (subtreeContrib model data fid) Inertia.add]
        exact inertia_foldl_add _ _
      exact congrArg Except.ok hsub

/-- Witness for C9, at frame 0 of the concrete model with the subtree
included. -/
theorem computeSupportedInertiaByFrame_eq_sum_witness :
    computeSupportedInertiaByFrame cModel cData 0 true = Except.ok
      (Inertia.add
        (inertiaSum ((siblingsAfter cModel 0).map (sibContrib cModel 0)))
        (if true then
          inertiaSum ((childJoints cModel
            (cModel.frames.getD 0 Frame.dummy).parentJoint).map
              (subtreeContrib cModel cData 0))
         else Inertia.zero)) :=
  computeSupportedInertiaByFrame_eq_sum cModel cData 0 true (by decide)

end PinKin
